import Mathlib

/-!
# Verification of the OS_CITY concurrency core

Shallow embedding of the concurrency-coordination layer of the repository:

* `BoundedBuffer` (src/core/buffer.py): a fixed-capacity FIFO with blocking
  `put`, blocking `get`, non-blocking `try_put`, and a terminal `close`.
  Each locked critical section of the Python code is embedded as one atomic
  action on an explicit state record; the waits of the condition variables
  split `put`/`get` into an *enter* section and a *resume* section (one per
  wakeup), exactly following the code's re-check order.
* The watchdog stall check (src/core/kernel.py, `_watchdog_loop`).
* One iteration of the periodic tick loop (src/subsystems/base.py,
  `Subsystem.run`).
* The `SqlLogger` front door (src/data/database.py, `SqlLogger.log`).

Time values are modelled as rationals.
-/

namespace OSCity

/-- State of a `BoundedBuffer` (src/core/buffer.py, `__init__`):
capacity, the deque of items (head = left end = next to be dequeued),
the closed flag, the five instrumentation counters of `self.stats`,
and `op_counter`. -/
structure BState (α : Type) where
  capacity : Nat
  buffer : List α
  closed : Bool
  puts : Nat
  gets : Nat
  waits_for_space : Nat
  waits_for_item : Nat
  drop_count : Nat
  op_counter : Nat
  deriving Repr, DecidableEq

/-- A freshly constructed buffer of the given capacity. -/
def initState (α : Type) (capacity : Nat) : BState α :=
  { capacity := capacity
    buffer := []
    closed := false
    puts := 0
    gets := 0
    waits_for_space := 0
    waits_for_item := 0
    drop_count := 0
    op_counter := 0 }

/-- One atomic (lock-held) critical section of a buffer operation.
`putEnter`/`getEnter` are the sections from lock acquisition to either return
or the first condition wait; `putResume`/`getResume` are the sections run by a
blocked thread when it wakes from `wait()` (the Boolean is the `success`
value returned by the wait: `timedOut = true` means the wait timed out). -/
inductive Act (α : Type) where
  | putEnter (item : α)
  | putResume (item : α) (timedOut : Bool)
  | getEnter
  | getResume (timedOut : Bool)
  | tryPut (item : α)
  | close
  deriving Repr, DecidableEq

/-- Result of one atomic section: what the Python code does at that point. -/
inductive Res (α : Type) where
  | putOk                 -- put returned True
  | putTimeout            -- put returned False
  | putClosedErr          -- put raised ValueError (spec: ChannelClosed)
  | putBlocked            -- put went to sleep on the not_full condition
  | gotItem (x : α)       -- get returned an item
  | getNone               -- get returned None (timeout)
  | getClosedErr          -- get raised StopIteration (spec: ChannelClosed)
  | getBlocked            -- get went to sleep on the not_empty condition
  | tryPutRes (b : Bool)  -- try_put returned b
  | closedOk              -- close returned
  deriving Repr, DecidableEq

/-- The state transition of one atomic section, transcribed from
src/core/buffer.py.

* `putEnter` (lines 72-99): `op_counter += 1`; raise if closed; if full,
  `waits_for_space += 1` and sleep; else append and `puts += 1`.
* `putResume` (lines 86-99): on wake, first re-check closed (raise), then the
  wait's success flag (timeout returns False), then the full re-check
  (`waits_for_space += 1` and sleep again), else append and `puts += 1`.
* `getEnter` (lines 114-138): `op_counter += 1`; if empty: raise if closed,
  else `waits_for_item += 1` and sleep; else pop the head and `gets += 1`.
* `getResume` (lines 128-138): on wake, first the wait's success flag
  (timeout returns None), then the empty re-check: if still empty raise if
  closed else `waits_for_item += 1` and sleep again; else pop and `gets += 1`.
* `tryPut` (lines 150-161): if closed return False; if full
  `drop_count += 1` and return False; else append and `puts += 1`.
* `close` (lines 168-172): set the closed flag. -/
def step {α : Type} (s : BState α) : Act α → BState α × Res α
  | .putEnter item =>
    let s := { s with op_counter := s.op_counter + 1 }
    if s.closed then
      (s, .putClosedErr)
    else if s.capacity ≤ s.buffer.length then
      ({ s with waits_for_space := s.waits_for_space + 1 }, .putBlocked)
    else
      ({ s with buffer := s.buffer ++ [item], puts := s.puts + 1 }, .putOk)
  | .putResume item timedOut =>
    if s.closed then
      (s, .putClosedErr)
    else if timedOut then
      (s, .putTimeout)
    else if s.capacity ≤ s.buffer.length then
      ({ s with waits_for_space := s.waits_for_space + 1 }, .putBlocked)
    else
      ({ s with buffer := s.buffer ++ [item], puts := s.puts + 1 }, .putOk)
  | .getEnter =>
    let s := { s with op_counter := s.op_counter + 1 }
    match s.buffer with
    | [] =>
      if s.closed then (s, .getClosedErr)
      else ({ s with waits_for_item := s.waits_for_item + 1 }, .getBlocked)
    | x :: rest =>
      ({ s with buffer := rest, gets := s.gets + 1 }, .gotItem x)
  | .getResume timedOut =>
    if timedOut then
      (s, .getNone)
    else
      match s.buffer with
      | [] =>
        if s.closed then (s, .getClosedErr)
        else ({ s with waits_for_item := s.waits_for_item + 1 }, .getBlocked)
      | x :: rest =>
        ({ s with buffer := rest, gets := s.gets + 1 }, .gotItem x)
  | .tryPut item =>
    if s.closed then
      (s, .tryPutRes false)
    else if s.capacity ≤ s.buffer.length then
      ({ s with drop_count := s.drop_count + 1 }, .tryPutRes false)
    else
      ({ s with buffer := s.buffer ++ [item], puts := s.puts + 1 }, .tryPutRes true)
  | .close =>
    ({ s with closed := true }, .closedOk)

/-- Run a sequence of atomic sections from a state. -/
def run {α : Type} (s : BState α) : List (Act α) → BState α
  | [] => s
  | a :: rest => run (step s a).1 rest

/-- Items successfully enqueued by one atomic section (in order). -/
def enqOf {α : Type} : Act α → Res α → List α
  | .putEnter i, .putOk => [i]
  | .putResume i _, .putOk => [i]
  | .tryPut i, .tryPutRes true => [i]
  | _, _ => []

/-- Items successfully dequeued by one atomic section. -/
def deqOf {α : Type} : Res α → List α
  | .gotItem x => [x]
  | _ => []

/-- A buffer state together with the accumulated histories of successfully
enqueued and dequeued items. -/
structure Trace (α : Type) where
  state : BState α
  enq : List α
  deq : List α
  deriving Repr, DecidableEq

def traceStep {α : Type} (t : Trace α) (a : Act α) : Trace α :=
  let p := step t.state a
  { state := p.1
    enq := t.enq ++ enqOf a p.2
    deq := t.deq ++ deqOf p.2 }

def runTrace {α : Type} (t : Trace α) : List (Act α) → Trace α
  | [] => t
  | a :: rest => runTrace (traceStep t a) rest

def initTrace (α : Type) (capacity : Nat) : Trace α :=
  { state := initState α capacity, enq := [], deq := [] }

/-! ## Step-level invariant lemmas -/

lemma step_capacity {α : Type} (s : BState α) (a : Act α) :
    (step s a).1.capacity = s.capacity := by
  cases a <;> simp only [step] <;> (repeat' split) <;> rfl

lemma step_size_le {α : Type} (s : BState α) (a : Act α)
    (hs : s.buffer.length ≤ s.capacity) :
    (step s a).1.buffer.length ≤ s.capacity := by
  cases a <;> simp only [step]
  case putEnter item =>
    split
    · simpa using hs
    · split
      · simpa using hs
      · rename_i hfull
        simp only [List.length_append, List.length_cons, List.length_nil]
        omega
  case putResume item timedOut =>
    split
    · simpa using hs
    · split
      · simpa using hs
      · split
        · simpa using hs
        · rename_i hfull
          simp only [List.length_append, List.length_cons, List.length_nil]
          omega
  case getEnter =>
    split
    · split <;> simpa using hs
    · rename_i x rest h
      simp only []
      have : s.buffer.length = rest.length + 1 := by
        simp [h]
      omega
  case getResume timedOut =>
    split
    · simpa using hs
    · split
      · split <;> simpa using hs
      · rename_i x rest h
        simp only []
        have : s.buffer.length = rest.length + 1 := by
          simp [h]
        omega
  case tryPut item =>
    split
    · simpa using hs
    · split
      · simpa using hs
      · rename_i hfull
        simp only [List.length_append, List.length_cons, List.length_nil]
        omega
  case close =>
    simpa using hs

lemma run_size_le {α : Type} (acts : List (Act α)) (s : BState α)
    (hs : s.buffer.length ≤ s.capacity) :
    (run s acts).buffer.length ≤ (run s acts).capacity := by
  induction acts generalizing s with
  | nil => simpa [run] using hs
  | cons a rest ih =>
    simp only [run]
    apply ih
    have h1 := step_size_le s a hs
    have h2 := step_capacity s a
    omega

lemma run_capacity {α : Type} (acts : List (Act α)) (s : BState α) :
    (run s acts).capacity = s.capacity := by
  induction acts generalizing s with
  | nil => rfl
  | cons a rest ih =>
    simp only [run]
    rw [ih, step_capacity]

lemma runTrace_state {α : Type} (acts : List (Act α)) (t : Trace α) :
    (runTrace t acts).state = run t.state acts := by
  induction acts generalizing t with
  | nil => rfl
  | cons a rest ih =>
    simp only [runTrace, run]
    rw [ih]
    rfl

/-- One atomic section preserves the joint history/conservation invariant:
the enqueue history equals the dequeue history followed by the current
buffer content, and `puts = gets + len(buffer)`. -/
lemma traceStep_inv {α : Type} (t : Trace α) (a : Act α)
    (h1 : t.enq = t.deq ++ t.state.buffer)
    (h2 : t.state.puts = t.state.gets + t.state.buffer.length) :
    (traceStep t a).enq =
      (traceStep t a).deq ++ (traceStep t a).state.buffer
    ∧ (traceStep t a).state.puts =
      (traceStep t a).state.gets + (traceStep t a).state.buffer.length := by
  cases a <;> simp only [traceStep, step] <;> (repeat' split) <;>
    simp_all [enqOf, deqOf] <;> omega

lemma runTrace_inv {α : Type} (acts : List (Act α)) (t : Trace α)
    (h1 : t.enq = t.deq ++ t.state.buffer)
    (h2 : t.state.puts = t.state.gets + t.state.buffer.length) :
    (runTrace t acts).enq =
      (runTrace t acts).deq ++ (runTrace t acts).state.buffer
    ∧ (runTrace t acts).state.puts =
      (runTrace t acts).state.gets + (runTrace t acts).state.buffer.length := by
  induction acts generalizing t with
  | nil => exact ⟨h1, h2⟩
  | cons a rest ih =>
    simp only [runTrace]
    have h := traceStep_inv t a h1 h2
    exact ih (traceStep t a) h.1 h.2

/-- A successful dequeue always returns the head (oldest element) of the
buffer: `get` pops with `popleft`. -/
lemma step_got_head {α : Type} (s : BState α) (a : Act α) (x : α)
    (h : (step s a).2 = .gotItem x) : s.buffer.head? = some x := by
  cases a <;> simp only [step] at h
  case putEnter item => split at h <;> (try split at h) <;> simp_all
  case putResume item timedOut =>
    split at h <;> (repeat' split at h) <;> simp_all
  case getEnter =>
    split at h
    · split at h <;> simp_all
    · rename_i x' rest heq
      simp only [Prod.snd] at h
      cases h
      simp [heq]
  case getResume timedOut =>
    split at h
    · simp_all
    · split at h
      · split at h <;> simp_all
      · rename_i x' rest heq
        simp only [Prod.snd] at h
        cases h
        simp [heq]
  case tryPut item => split at h <;> (try split at h) <;> simp_all
  case close => simp_all

/-! ## Claim theorems for the BoundedChannel -/

/-- A small concrete operation sequence used by the witnesses. -/
def demoActs : List (Act Nat) :=
  [.putEnter 7, .putEnter 8, .tryPut 9, .getEnter, .putEnter 10,
   .close, .getEnter, .getResume true, .tryPut 11]

/-- **C1.** For every BoundedChannel constructed with capacity `C ≥ 1`, after
any sequence of put, try_put, get, and close operations, the number of queued
items satisfies `0 ≤ size ≤ C`: no atomic section of any operation makes the
size exceed the capacity or go negative. -/
theorem claim1_size_bounded (C : Nat) (_hC : 1 ≤ C) (acts : List (Act Nat)) :
    0 ≤ (run (initState Nat C) acts).buffer.length ∧
    (run (initState Nat C) acts).buffer.length ≤ C := by
  refine ⟨Nat.zero_le _, ?_⟩
  have h := run_size_le acts (initState Nat C) (by simp [initState])
  rwa [run_capacity] at h

theorem claim1_size_bounded_witness :
    1 ≤ (2 : Nat) ∧
    (0 ≤ (run (initState Nat 2) demoActs).buffer.length ∧
      (run (initState Nat 2) demoActs).buffer.length ≤ 2) :=
  ⟨by decide, claim1_size_bounded 2 (by decide) demoActs⟩

/-- **C2.** FIFO order: over any operation sequence, the history of
successfully enqueued items equals the history of successfully dequeued items
followed by the items still queued (so dequeues happen in exactly enqueue
order), and every successful get returns the head — the oldest item still
queued. -/
theorem claim2_fifo_order (C : Nat) (acts : List (Act Nat)) :
    ((runTrace (initTrace Nat C) acts).enq =
      (runTrace (initTrace Nat C) acts).deq ++
        (runTrace (initTrace Nat C) acts).state.buffer)
    ∧ ∀ (s : BState Nat) (a : Act Nat) (x : Nat),
        (step s a).2 = .gotItem x → s.buffer.head? = some x := by
  refine ⟨?_, fun s a x h => step_got_head s a x h⟩
  exact (runTrace_inv acts (initTrace Nat C) (by simp [initTrace, initState])
    (by simp [initTrace, initState])).1

/-- A concrete mid-run channel state used by witnesses: capacity 2 holding
`[5, 6]`, open. -/
def exState : BState Nat :=
  { capacity := 2, buffer := [5, 6], closed := false, puts := 2, gets := 0,
    waits_for_space := 0, waits_for_item := 0, drop_count := 0, op_counter := 2 }

theorem claim2_fifo_order_witness :
    ((runTrace (initTrace Nat 2) demoActs).enq =
      (runTrace (initTrace Nat 2) demoActs).deq ++
        (runTrace (initTrace Nat 2) demoActs).state.buffer)
    ∧ (runTrace (initTrace Nat 2) demoActs).enq = [7, 8, 10]
    ∧ (runTrace (initTrace Nat 2) demoActs).deq = [7, 8]
    ∧ exState.buffer.head? = some 5 := by
  refine ⟨(claim2_fifo_order 2 demoActs).1, by decide, by decide,
    (claim2_fifo_order 2 demoActs).2 exState .getEnter 5 (by decide)⟩

/-- **C3.** Conservation law: from a fresh channel, after any operation
sequence, the successful-puts counter equals the successful-gets counter plus
the current number of queued items. -/
theorem claim3_conservation (C : Nat) (acts : List (Act Nat)) :
    (run (initState Nat C) acts).puts =
      (run (initState Nat C) acts).gets +
        (run (initState Nat C) acts).buffer.length := by
  have h := (runTrace_inv acts (initTrace Nat C) (by simp [initTrace, initState])
    (by simp [initTrace, initState])).2
  rwa [runTrace_state] at h

/-- A concrete closed channel state still holding one item. -/
def exClosed : BState Nat :=
  { capacity := 2, buffer := [5], closed := true, puts := 1, gets := 0,
    waits_for_space := 0, waits_for_item := 0, drop_count := 0, op_counter := 1 }

/-- A concrete full open channel state (capacity 1 holding one item). -/
def exFull : BState Nat :=
  { capacity := 1, buffer := [3], closed := false, puts := 1, gets := 0,
    waits_for_space := 0, waits_for_item := 0, drop_count := 0, op_counter := 1 }

/-- **C4.** Once the channel is closed, no new item may be enqueued: blocking
put fails with the closed error both when the channel was closed before the
call (`putEnter`) and when it became closed during its wait (`putResume`),
and non-blocking try_put returns false; in none of these cases is the item
added (the buffer, and everything except put's entry `op_counter` bump, is
unchanged). -/
theorem claim4_closed_rejects_put (s : BState Nat) (i : Nat) (t : Bool)
    (h : s.closed = true) :
    ((step s (.putEnter i)).2 = .putClosedErr
      ∧ (step s (.putEnter i)).1 = { s with op_counter := s.op_counter + 1 })
    ∧ ((step s (.putResume i t)).2 = .putClosedErr
      ∧ (step s (.putResume i t)).1 = s)
    ∧ ((step s (.tryPut i)).2 = .tryPutRes false
      ∧ (step s (.tryPut i)).1 = s) := by
  simp [step, h]

theorem claim4_closed_rejects_put_witness :
    exClosed.closed = true ∧
    (((step exClosed (.putEnter 9)).2 = .putClosedErr
      ∧ (step exClosed (.putEnter 9)).1 =
          { exClosed with op_counter := exClosed.op_counter + 1 })
    ∧ ((step exClosed (.putResume 9 false)).2 = .putClosedErr
      ∧ (step exClosed (.putResume 9 false)).1 = exClosed)
    ∧ ((step exClosed (.tryPut 9)).2 = .tryPutRes false
      ∧ (step exClosed (.tryPut 9)).1 = exClosed)) :=
  ⟨rfl, claim4_closed_rejects_put exClosed 9 false rfl⟩

/-- **C5.** `get` fails with the closed error only when the channel is both
empty and closed; when the channel is closed but still holds items, get
succeeds and returns the head item (so queued items remain consumable after
close until drained). -/
theorem claim5_get_drains_after_close (s : BState Nat) (t : Bool) :
    ((step s .getEnter).2 = .getClosedErr ↔ s.buffer = [] ∧ s.closed = true)
    ∧ ((step s (.getResume t)).2 = .getClosedErr →
        s.buffer = [] ∧ s.closed = true)
    ∧ (∀ x rest, s.closed = true → s.buffer = x :: rest →
        (step s .getEnter).2 = .gotItem x
        ∧ (step s .getEnter).1.buffer = rest
        ∧ (step s (.getResume false)).2 = .gotItem x) := by
  refine ⟨?_, ?_, ?_⟩
  · cases hb : s.buffer with
    | nil => cases hc : s.closed <;> simp [step, hb, hc]
    | cons x rest => simp [step, hb]
  · intro h
    cases t with
    | true => simp [step] at h
    | false =>
      cases hb : s.buffer with
      | nil =>
        cases hc : s.closed with
        | true => simp [hb, hc]
        | false => simp [step, hb, hc] at h
      | cons x rest => simp [step, hb] at h
  · intro x rest hc hb
    simp [step, hb, hc]

theorem claim5_get_drains_after_close_witness :
    exClosed.closed = true ∧ exClosed.buffer = 5 :: [] ∧
    ((step exClosed .getEnter).2 = .gotItem 5
      ∧ (step exClosed .getEnter).1.buffer = []
      ∧ (step exClosed (.getResume false)).2 = .gotItem 5) :=
  ⟨rfl, rfl,
    (claim5_get_drains_after_close exClosed false).2.2 5 [] rfl rfl⟩

/-- Counterexample to **C6** as stated: on a closed channel `try_put` returns
false but does NOT increment the drop counter (the closed check returns
before the `drop_count` update in src/core/buffer.py lines 151-156). -/
theorem claim6_tryput_counterexample :
    exClosed.closed = true
    ∧ (step exClosed (.tryPut 9)).2 = .tryPutRes false
    ∧ ¬ (step exClosed (.tryPut 9)).1.drop_count
          = exClosed.drop_count + 1 := by
  decide

/-- **C6 amended.** try_put never blocks (it always returns a Boolean in one
atomic section); when the channel is open but full it returns false,
increments the drop counter by one and changes nothing else; when the channel
is closed it returns false and changes nothing at all — in particular the
drop counter is NOT incremented; when open and not full it succeeds. -/
theorem claim6_tryput_amended (s : BState Nat) (i : Nat) :
    (∃ b, (step s (.tryPut i)).2 = .tryPutRes b)
    ∧ (s.closed = true →
        (step s (.tryPut i)).2 = .tryPutRes false
        ∧ (step s (.tryPut i)).1 = s)
    ∧ (s.closed = false → s.capacity ≤ s.buffer.length →
        (step s (.tryPut i)).2 = .tryPutRes false
        ∧ (step s (.tryPut i)).1 =
            { s with drop_count := s.drop_count + 1 })
    ∧ (s.closed = false → s.buffer.length < s.capacity →
        (step s (.tryPut i)).2 = .tryPutRes true) := by
  refine ⟨?_, fun h => by simp [step, h], fun h hf => by simp [step, h, hf],
    fun h hnf => by simp [step, h, Nat.not_le.mpr hnf]⟩
  simp only [step]
  split
  · exact ⟨false, rfl⟩
  · split
    · exact ⟨false, rfl⟩
    · exact ⟨true, rfl⟩

theorem claim6_tryput_amended_witness :
    (exClosed.closed = true
      ∧ (step exClosed (.tryPut 9)).2 = .tryPutRes false
      ∧ (step exClosed (.tryPut 9)).1 = exClosed)
    ∧ (exFull.closed = false ∧ exFull.capacity ≤ exFull.buffer.length
      ∧ (step exFull (.tryPut 9)).2 = .tryPutRes false
      ∧ (step exFull (.tryPut 9)).1 =
          { exFull with drop_count := exFull.drop_count + 1 }) :=
  ⟨⟨rfl, (claim6_tryput_amended exClosed 9).2.1 rfl⟩,
    ⟨rfl, by decide, (claim6_tryput_amended exFull 9).2.2.1 rfl (by decide)⟩⟩

/-- **C7.** A blocking put on a full channel that never closes and never
gains space: the entry section blocks, the timed-out wakeup returns false,
and afterwards the queued items and the puts, gets, drop and item-wait
counters are all exactly as before the call; only `waits_for_space` has
increased (by one). -/
theorem claim7_put_timeout_frame (s : BState Nat) (i : Nat)
    (hfull : s.capacity ≤ s.buffer.length) (hopen : s.closed = false) :
    ((step s (.putEnter i)).2 = .putBlocked)
    ∧ ((step (step s (.putEnter i)).1 (.putResume i true)).2 = .putTimeout)
    ∧ ((step (step s (.putEnter i)).1 (.putResume i true)).1.buffer = s.buffer
      ∧ (step (step s (.putEnter i)).1 (.putResume i true)).1.puts = s.puts
      ∧ (step (step s (.putEnter i)).1 (.putResume i true)).1.gets = s.gets
      ∧ (step (step s (.putEnter i)).1 (.putResume i true)).1.drop_count
          = s.drop_count
      ∧ (step (step s (.putEnter i)).1 (.putResume i true)).1.waits_for_item
          = s.waits_for_item
      ∧ (step (step s (.putEnter i)).1 (.putResume i true)).1.waits_for_space
          = s.waits_for_space + 1) := by
  simp [step, hfull, hopen]

theorem claim7_put_timeout_frame_witness :
    (exFull.capacity ≤ exFull.buffer.length ∧ exFull.closed = false) ∧
    (((step exFull (.putEnter 9)).2 = .putBlocked)
    ∧ ((step (step exFull (.putEnter 9)).1 (.putResume 9 true)).2 = .putTimeout)
    ∧ ((step (step exFull (.putEnter 9)).1 (.putResume 9 true)).1.buffer
          = exFull.buffer
      ∧ (step (step exFull (.putEnter 9)).1 (.putResume 9 true)).1.puts
          = exFull.puts
      ∧ (step (step exFull (.putEnter 9)).1 (.putResume 9 true)).1.gets
          = exFull.gets
      ∧ (step (step exFull (.putEnter 9)).1 (.putResume 9 true)).1.drop_count
          = exFull.drop_count
      ∧ (step (step exFull (.putEnter 9)).1 (.putResume 9 true)).1.waits_for_item
          = exFull.waits_for_item
      ∧ (step (step exFull (.putEnter 9)).1 (.putResume 9 true)).1.waits_for_space
          = exFull.waits_for_space + 1)) :=
  ⟨⟨by decide, rfl⟩, claim7_put_timeout_frame exFull 9 (by decide) rfl⟩

/-! ## Watchdog stall detection (src/core/kernel.py, `_watchdog_loop`) -/

/-- The worker liveness fields read by the watchdog: the subsystem name and
its `last_tick_ts` (src/subsystems/base.py line 38 / kernel.py line 142). -/
structure WorkerObs where
  name : String
  last_tick_ts : ℚ
  deriving Repr, DecidableEq

/-- The stall threshold hard-coded in `_watchdog_loop` (kernel.py line 143):
5.0 seconds. -/
def stallThreshold : ℚ := 5

/-- The payload of the `stall_detected` Metric event (kernel.py lines
145-149). -/
structure StallMetric where
  target : String
  duration : ℚ
  deriving Repr, DecidableEq

/-- The per-worker body of the watchdog check (kernel.py lines 141-149):
compute `time_since_tick = now - s.last_tick_ts`; if it exceeds the
threshold, log a `stall_detected` metric naming the worker and the duration;
otherwise log nothing. -/
def watchdogCheckWorker (now : ℚ) (s : WorkerObs) : Option StallMetric :=
  let time_since_tick := now - s.last_tick_ts
  if stallThreshold < time_since_tick then
    some { target := s.name, duration := time_since_tick }
  else
    none

/-- The `for s in self.subsystems` loop of one watchdog period (kernel.py
lines 141-149): the stall events it emits, in order. -/
def watchdogScan (now : ℚ) (subs : List WorkerObs) : List StallMetric :=
  subs.filterMap (watchdogCheckWorker now)

/-- **C8.** On a watchdog period, a registered worker is flagged as stalled
if and only if `now - last_tick_ts` exceeds the 5-second threshold: the
per-worker check emits a `stall_detected` metric exactly in that case, the
metric (with the worker's name and duration) appears in the period's scan
output, and a worker within the threshold is never flagged. -/
theorem claim8_watchdog_stall_iff (now : ℚ) (subs : List WorkerObs)
    (s : WorkerObs) (hs : s ∈ subs) :
    ((watchdogCheckWorker now s).isSome = true
      ↔ stallThreshold < now - s.last_tick_ts)
    ∧ (stallThreshold < now - s.last_tick_ts →
        { target := s.name, duration := now - s.last_tick_ts }
          ∈ watchdogScan now subs)
    ∧ (¬ stallThreshold < now - s.last_tick_ts →
        watchdogCheckWorker now s = none) := by
  refine ⟨?_, fun h => ?_, fun h => by simp [watchdogCheckWorker, h]⟩
  · simp only [watchdogCheckWorker]
    split <;> simp_all
  · exact List.mem_filterMap.mpr ⟨s, hs, by simp [watchdogCheckWorker, h]⟩

/-- The registered workers used by the watchdog witness: at `now = 10`,
Traffic last ticked at 2 (8 s ago, stalled) and Energy at 9 (1 s ago,
healthy). -/
def demoWorkers : List WorkerObs :=
  [{ name := "Traffic", last_tick_ts := 2 }, { name := "Energy", last_tick_ts := 9 }]

theorem claim8_watchdog_stall_iff_witness :
    ({ name := "Traffic", last_tick_ts := (2 : ℚ) } ∈ demoWorkers
      ∧ stallThreshold < (10 : ℚ) - 2
      ∧ { target := "Traffic", duration := (10 : ℚ) - 2 }
          ∈ watchdogScan 10 demoWorkers)
    ∧ ({ name := "Energy", last_tick_ts := (9 : ℚ) } ∈ demoWorkers
      ∧ ¬ stallThreshold < (10 : ℚ) - 9
      ∧ watchdogCheckWorker 10 { name := "Energy", last_tick_ts := (9 : ℚ) }
          = none) := by
  constructor
  · refine ⟨by simp [demoWorkers], by norm_num [stallThreshold], ?_⟩
    exact (claim8_watchdog_stall_iff 10 demoWorkers
      { name := "Traffic", last_tick_ts := 2 } (by simp [demoWorkers])).2.1
      (by norm_num [stallThreshold])
  · refine ⟨by simp [demoWorkers], by norm_num [stallThreshold], ?_⟩
    exact (claim8_watchdog_stall_iff 10 demoWorkers
      { name := "Energy", last_tick_ts := 9 } (by simp [demoWorkers])).2.2
      (by norm_num [stallThreshold])

/-! ## Periodic tick loop (src/subsystems/base.py, `Subsystem.run`) -/

/-- The four successive `time.perf_counter()` samples taken in one iteration
of the tick loop: `loop_start` (line 47), `work_end` (line 55), the sample
inside the latency computation (line 63) and the sample inside the drift
computation (line 64) — the latter is the instant at which the tick's work,
including its own measurement, has actually completed. -/
structure TickObs where
  loop_start : ℚ
  work_end : ℚ
  latency_sample : ℚ
  drift_sample : ℚ
  deriving Repr, DecidableEq

/-- The fields of the Tick event logged each iteration (base.py lines
66-73). -/
structure TickEventM where
  tick_seq : Nat
  latency_ms : ℚ
  drift_ms : ℚ
  work_time_ms : ℚ
  deriving Repr, DecidableEq

/-- One iteration of `Subsystem.run` (base.py lines 46-80): perform the work,
bump `tick_count`, advance the absolute schedule `next_tick_time` by
`interval` (line 59) — this advanced value is the iteration's scheduled
target — then log one Tick event with `latency`, `drift` and `work_duration`
in milliseconds (lines 56, 63-73). Returns the new `next_tick_time`, the new
`tick_count`, and the list of events the iteration logged. -/
def tickIteration (interval next_tick_time : ℚ) (tick_count : Nat)
    (o : TickObs) : ℚ × Nat × List TickEventM :=
  let work_duration := (o.work_end - o.loop_start) * 1000
  let tick_count' := tick_count + 1
  let next' := next_tick_time + interval
  let latency := (o.latency_sample - o.loop_start) * 1000
  let drift := (o.drift_sample - next') * 1000
  (next', tick_count',
    [{ tick_seq := tick_count', latency_ms := latency, drift_ms := drift,
       work_time_ms := work_duration }])

/-- **C9.** Every iteration of the tick loop logs exactly one Tick event, and
that event's drift equals (in ms) the actual completion instant minus the
iteration's scheduled target `next_tick_time + interval`; the drift is
negative exactly when completion was ahead of the scheduled target. -/
theorem claim9_tick_drift (interval next_tick_time : ℚ) (tick_count : Nat)
    (o : TickObs) :
    ((tickIteration interval next_tick_time tick_count o).2.2.length = 1)
    ∧ (∀ e ∈ (tickIteration interval next_tick_time tick_count o).2.2,
        e.drift_ms = (o.drift_sample - (next_tick_time + interval)) * 1000
        ∧ (e.drift_ms < 0 ↔ o.drift_sample < next_tick_time + interval)) := by
  refine ⟨rfl, ?_⟩
  intro e he
  simp only [tickIteration, List.mem_singleton] at he
  subst he
  refine ⟨rfl, ?_⟩
  simp only []
  constructor
  · intro h
    by_contra hc
    push_neg at hc
    nlinarith
  · intro h
    nlinarith

theorem claim9_tick_drift_witness :
    ((tickIteration (1/2) 0 0 ⟨0, 3/10, 3/10, 7/20⟩).2.2.length = 1)
    ∧ ({ tick_seq := 1, latency_ms := 300, drift_ms := -150,
         work_time_ms := 300 }
        ∈ (tickIteration (1/2 : ℚ) 0 0 ⟨0, 3/10, 3/10, 7/20⟩).2.2)
    ∧ ((-150 : ℚ) = ((7/20 : ℚ) - (0 + 1/2)) * 1000
        ∧ ((-150 : ℚ) < 0 ↔ (7/20 : ℚ) < 0 + 1/2)) := by
  refine ⟨(claim9_tick_drift (1/2) 0 0 ⟨0, 3/10, 3/10, 7/20⟩).1,
    by norm_num [tickIteration], ?_⟩
  exact (claim9_tick_drift (1/2) 0 0 ⟨0, 3/10, 3/10, 7/20⟩).2
    { tick_seq := 1, latency_ms := 300, drift_ms := -150, work_time_ms := 300 }
    (by norm_num [tickIteration])

/-! ## SqlLogger front door (src/data/database.py) -/

/-- The modelled state of `SqlLogger`: the `_running` flag and the internal
`SimpleQueue`, whose entries are events or the `None` shutdown sentinel. -/
structure SinkState (ε : Type) where
  running : Bool
  queue : List (Option ε)
  deriving Repr, DecidableEq

/-- `SqlLogger.__init__` (database.py lines 36-45): the queue starts empty
and `_running` starts false. -/
def initSink (ε : Type) : SinkState ε := { running := false, queue := [] }

/-- The effect of `SqlLogger.start` (lines 47-67) on the modelled state: sets
`_running = True` (thread and schema management are outside the model). -/
def startSink {ε : Type} (s : SinkState ε) : SinkState ε :=
  { s with running := true }

/-- `SqlLogger.stop` (lines 69-72): clears `_running`, then pushes the
`None` sentinel onto the queue. -/
def stopSink {ε : Type} (s : SinkState ε) : SinkState ε :=
  { running := false, queue := s.queue ++ [none] }

/-- `SqlLogger.log` (lines 74-78): if `_running` is false, return
immediately without touching the queue; otherwise enqueue the event. -/
def logEvent {ε : Type} (s : SinkState ε) (e : ε) : SinkState ε :=
  if s.running = false then s
  else { s with queue := s.queue ++ [some e] }

/-- **C10.** Calling `log(event)` while the sink is not running silently
discards the event: the call is a total function (raises nothing) and leaves
the state — in particular the internal queue — completely unchanged; this
covers both the freshly constructed sink (before `start()`) and any sink on
which `stop()` has run, and when running it does enqueue. -/
theorem claim10_log_discarded_when_not_running (s s' : SinkState Nat)
    (e : Nat) (h : s.running = false) :
    logEvent s e = s
    ∧ logEvent (initSink Nat) e = initSink Nat
    ∧ logEvent (stopSink s') e = stopSink s'
    ∧ (s'.running = true →
        logEvent s' e = { s' with queue := s'.queue ++ [some e] }) := by
  refine ⟨by simp [logEvent, h], by simp [logEvent, initSink],
    by simp [logEvent, stopSink], fun hr => by simp [logEvent, hr]⟩

theorem claim10_log_discarded_when_not_running_witness :
    ((SinkState.mk false [some 4] : SinkState Nat).running = false)
    ∧ logEvent (SinkState.mk false [some 4]) 7 = SinkState.mk false [some 4]
    ∧ logEvent (initSink Nat) 7 = initSink Nat
    ∧ logEvent (stopSink (SinkState.mk true [some 4])) 7
        = stopSink (SinkState.mk true [some 4]) :=
  ⟨rfl,
    (claim10_log_discarded_when_not_running
      (SinkState.mk false [some 4]) (SinkState.mk true [some 4]) 7 rfl).1,
    (claim10_log_discarded_when_not_running
      (SinkState.mk false [some 4]) (SinkState.mk true [some 4]) 7 rfl).2.1,
    (claim10_log_discarded_when_not_running
      (SinkState.mk false [some 4]) (SinkState.mk true [some 4]) 7 rfl).2.2.1⟩

end OSCity
